import Mathlib

/-!
# Verification of the chat-app presence and messaging server

A shallow embedding of the Node.js/Socket.IO chat server (`server.js`):
the in-memory data model (`users`, `connections`, `messages` maps), the
REST registration handler, and the six socket event handlers
(`user-login`, `get-chat-history`, `send-message`, `typing`,
`disconnect`, `logout`), together with theorems settling the behavioural
claims about them.

Conventions of the embedding:
* JavaScript `Map` objects become association lists with `Map.set`
  (replace or append) semantics; `undefined` payload fields become
  `Option` with `none` for `undefined`.
* A handler that would raise a `TypeError` (e.g. calling `.trim()` on
  `undefined`) is modelled as `Except.error ()`; normal completion is
  `Except.ok (state, emissions)`.
* Strings are ASCII in every scenario the server produces, so
  `Char.toLower`/code-point comparison coincide with JavaScript's
  `toLowerCase`/UTF-16 ordering on the strings involved.
-/

set_option autoImplicit false

namespace ChatApp

/-! ## JavaScript string primitives -/

/-- JS whitespace as relevant to `String.prototype.trim` on the ASCII
range (space, tab, newline, carriage return, form feed, vertical tab). -/
def isJsWhitespace (c : Char) : Bool :=
  c == ' ' || c == '\t' || c == '\n' || c == '\r' || c == '\x0c' || c == '\x0b'

/-- JS `String.prototype.trim()`: strip whitespace from both ends. -/
def jsTrim (s : String) : String :=
  ⟨((s.data.dropWhile isJsWhitespace).reverse.dropWhile isJsWhitespace).reverse⟩

/-- JS `String.prototype.toLowerCase()` restricted to ASCII (the only
characters the server ever compares); `Char.toLower` lowers exactly
the ASCII uppercase letters. -/
def jsToLower (s : String) : String :=
  ⟨s.data.map Char.toLower⟩

/-- JavaScript string comparison `a < b` (lexicographic on code units;
code points and UTF-16 units agree on the ASCII strings in play). -/
def jsLtChars : List Char → List Char → Bool
  | [], [] => false
  | [], _ :: _ => true
  | _ :: _, [] => false
  | a :: as, b :: bs =>
    if a < b then true
    else if b < a then false
    else jsLtChars as bs

/-- JS `Array.prototype.slice(n)` (single argument): for `n ≥ 0` drop the
first `n` elements, for `n < 0` keep the last `|n|` elements (clamped). -/
def jsSlice {α : Type} (l : List α) (n : Int) : List α :=
  if 0 ≤ n then l.drop n.toNat else l.drop (l.length - (-n).toNat)

/-! ## Association lists with JavaScript `Map` semantics -/

/-- JS `Map.prototype.get`. -/
def alookup {K V : Type} [DecidableEq K] : List (K × V) → K → Option V
  | [], _ => none
  | (k', v) :: t, k => if k = k' then some v else alookup t k

/-- JS `Map.prototype.set`: replace the value of an existing key in place,
or append a new entry at the end (insertion order is preserved). -/
def mapSet {K V : Type} [DecidableEq K] : List (K × V) → K → V → List (K × V)
  | [], k, v => [(k, v)]
  | (k', v') :: t, k, v => if k = k' then (k, v) :: t else (k', v') :: mapSet t k v

/-- JS `Map.prototype.delete`. -/
def mapDel {K V : Type} [DecidableEq K] : List (K × V) → K → List (K × V)
  | [], _ => []
  | (k', v') :: t, k => if k = k' then t else (k', v') :: mapDel t k

/-! ## Data model

`const users = new Map()`       : userId → { username, socketId, online }
`const connections = new Map()` : socketId → userId
`const messages = new Map()`    : conversationId → [messages]

The stored `createdAt` field of a user (an ISO timestamp written at
registration and never read by any handler) is elided from the record. -/

structure UserRec where
  username : String
  socketId : Option String
  online : Bool
  deriving DecidableEq

structure MessageData where
  id : String
  senderId : String
  senderName : String
  recipientId : String
  recipientName : String
  message : String
  timestamp : String
  deriving DecidableEq

structure ServerState where
  users : List (String × UserRec)
  connections : List (String × String)
  messages : List (String × List MessageData)
  deriving DecidableEq

/-- The state at server start: all three maps empty. -/
def initialState : ServerState := ⟨[], [], []⟩

/-! ## Helper functions of the server -/

/-- The helper `getConversationId(user1, user2)`: `[user1, user2].sort().join("_")`.
JS `Array.prototype.sort` on two strings swaps them exactly when the
second compares less than the first. -/
def getConversationId (user1 user2 : String) : String :=
  if jsLtChars user2.data user1.data then user2 ++ "_" ++ user1
  else user1 ++ "_" ++ user2

/-- Variant of `getConversationId(u, other)` used when `other` may be `undefined`
(missing payload field): JS sorts `undefined` to the end of the array
and `join` renders it as the empty string, yielding `u ++ "_"`. -/
def convIdOpt (u : String) (other : Option String) : String :=
  match other with
  | some v => getConversationId u v
  | none => u ++ "_"

/-- The helper `getOnlineUsers(excludeUserId = null)`: all users with
`online == true`, except the excluded id; `(userId, username)` pairs in
registry insertion order. -/
def getOnlineUsers (s : ServerState) (exclude : Option String) : List (String × String) :=
  (s.users.filter fun p =>
      p.2.online && (match exclude with | none => true | some e => p.1 != e)).map
    fun p => (p.1, p.2.username)

/-- The helper `getChatHistory(user1, user2, limit = 50)`: look the conversation up
under the canonical key and return `history.slice(-limit)`. The default
applies only when the argument is missing (`none`); an explicit
non-positive limit is passed through to `slice` untouched. -/
def getChatHistory (s : ServerState) (user1 : String) (user2 : Option String)
    (limit : Option Int) : List MessageData :=
  let conversationId := convIdOpt user1 user2
  let history := (alookup s.messages conversationId).getD []
  jsSlice history (-(limit.getD 50))

/-- The total stored message count, as computed by the health endpoint
(`Array.from(messages.values()).reduce((sum, msgs) => sum + msgs.length, 0)`). -/
def totalMessages (s : ServerState) : Nat :=
  (s.messages.map fun p => p.2.length).sum

/-- The user id allocated by `/api/register`:
``user_${Date.now()}_${Math.random().toString(36).substr(2, 9)}``,
with the clock reading and the random base-36 suffix as parameters. -/
def genUserId (now : Nat) (rand : String) : String :=
  "user_" ++ toString now ++ "_" ++ rand

/-- The message id allocated by the `send-message` handler:
``msg_${Date.now()}_${Math.random().toString(36).substr(2, 9)}``. -/
def genMsgId (now : Nat) (rand : String) : String :=
  "msg_" ++ toString now ++ "_" ++ rand

/-! ## Registration endpoint (`POST /api/register`) -/

inductive RegResult where
  /-- HTTP 400, "Username must be at least 2 characters long". -/
  | invalidName
  /-- HTTP 400, "Username already taken". -/
  | nameTaken
  /-- HTTP 200 carrying the fresh userId and the trimmed username. -/
  | success (userId : String) (username : String)
  deriving DecidableEq

/-- The `/api/register` handler. `username` is `none` when the request
body lacks the field (`undefined`); the string `""` is the only falsy
string, so `!username` also rejects it. `now`/`rand` stand for the
`Date.now()` and `Math.random()` draws made inside the handler. -/
def register (s : ServerState) (username : Option String) (now : Nat) (rand : String) :
    RegResult × ServerState :=
  match username with
  | none => (.invalidName, s)
  | some u =>
    if u == "" || (jsTrim u).length < 2 then
      (.invalidName, s)
    else if (s.users.find? fun p => jsToLower p.2.username == jsToLower u).isSome then
      (.nameTaken, s)
    else
      let userId := genUserId now rand
      (.success userId (jsTrim u),
        { s with users := mapSet s.users userId ⟨jsTrim u, none, false⟩ })

/-! ## Socket events

Each inbound event carries the handle (`socket.id`) of the channel it
arrived on. Payload fields a client may omit are `Option`s with `none`
standing for `undefined`. A `send-message` event additionally carries
the `Date.now()` reading, the `Math.random()` base-36 suffix and the
`new Date().toISOString()` string drawn while handling it. -/

inductive Event where
  | userLogin (sid : String) (userId : Option String)
  | getHistory (sid : String) (otherUserId : Option String)
  | sendMessage (sid : String) (recipientId : Option String) (message : Option String)
      (now : Nat) (rand : String) (ts : String)
  | typing (sid : String) (recipientId : Option String) (isTyping : Option Bool)
  | disconnect (sid : String)
  | logout (sid : String)
  deriving DecidableEq

inductive Payload where
  | errorMsg (message : String)
  | loginSuccess (userId username : String)
  | usersUpdate (l : List (String × String))
  | userOnline (userId username : String)
  | userOffline (userId username : String)
  | chatHist (otherUserId : Option String) (msgs : List MessageData)
  | receiveMessage (m : MessageData)
  | messageSent (m : MessageData)
  | userTyping (userId : String) (isTyping : Option Bool)
  deriving DecidableEq

/-- An outbound emission: `socket.emit`/`io.to(h).emit` (unicast),
`io.emit` (all channels), `socket.broadcast.emit` (all but sender). -/
inductive Emit where
  | toSocket (sid : String) (p : Payload)
  | toAll (p : Payload)
  | broadcastFrom (sid : String) (p : Payload)
  deriving DecidableEq

/-- Shared body of the `disconnect` and `logout` handlers (their source
is identical): if the channel resolves to a registered user, mark the
user offline and unbind the handle, announcing `user-offline` to the
other channels and a fresh `users-update` to all; in every case delete
the channel's binding. -/
def logoutCore (s : ServerState) (sid : String) : ServerState × List Emit :=
  match alookup s.connections sid with
  | none => ({ s with connections := mapDel s.connections sid }, [])
  | some userId =>
    match alookup s.users userId with
    | none => ({ s with connections := mapDel s.connections sid }, [])
    | some user =>
      let user' := { user with online := false, socketId := none }
      let s' := { s with users := mapSet s.users userId user' }
      ({ s' with connections := mapDel s'.connections sid },
        [.broadcastFrom sid (.userOffline userId user.username),
         .toAll (.usersUpdate (getOnlineUsers s' none))])

/-- Append a message to the conversation of the (unordered) pair
`(userA, userB)`, creating the entry if absent — the store mutation the
`send-message` handler performs. -/
def appendMessage (s : ServerState) (userA userB : String) (md : MessageData) : ServerState :=
  let conversationId := getConversationId userA userB
  { s with messages :=
      mapSet s.messages conversationId ((alookup s.messages conversationId).getD [] ++ [md]) }

/-- One inbound event handled to completion. `Except.error ()` models an
uncaught `TypeError` thrown inside the handler; `Except.ok` carries the
new state and the emissions in source order. -/
def step (s : ServerState) (e : Event) : Except Unit (ServerState × List Emit) :=
  match e with
  | .userLogin sid userIdOpt =>
    -- `users.has(undefined)` is false, so a missing id takes the error branch.
    match userIdOpt with
    | none => .ok (s, [.toSocket sid (.errorMsg "User not found")])
    | some userId =>
      match alookup s.users userId with
      | none => .ok (s, [.toSocket sid (.errorMsg "User not found")])
      | some user =>
        let user' := { user with socketId := some sid, online := true }
        let s' := { s with users := mapSet s.users userId user',
                           connections := mapSet s.connections sid userId }
        .ok (s', [.toSocket sid (.loginSuccess userId user.username),
                  .toAll (.usersUpdate (getOnlineUsers s' none)),
                  .broadcastFrom sid (.userOnline userId user.username)])
  | .getHistory sid otherUserId =>
    match alookup s.connections sid with
    | none => .ok (s, [])
    | some userId =>
      .ok (s, [.toSocket sid (.chatHist otherUserId (getChatHistory s userId otherUserId none))])
  | .sendMessage sid recipientIdOpt messageOpt now rand ts =>
    match alookup s.connections sid with
    | none => .ok (s, [.toSocket sid (.errorMsg "Not authenticated")])
    | some senderId =>
      -- `users.has(recipientId)` — false for a missing or unknown id.
      match recipientIdOpt with
      | none => .ok (s, [.toSocket sid (.errorMsg "Recipient not found")])
      | some recipientId =>
        match alookup s.users recipientId with
        | none => .ok (s, [.toSocket sid (.errorMsg "Recipient not found")])
        | some recipient =>
          match alookup s.users senderId with
          | none => .error ()  -- `sender.username` on `undefined` throws
          | some sender =>
            match messageOpt with
            | none => .error ()  -- `message.trim()` on `undefined` throws
            | some m =>
              let md : MessageData :=
                { id := genMsgId now rand, senderId := senderId,
                  senderName := sender.username, recipientId := recipientId,
                  recipientName := recipient.username, message := jsTrim m,
                  timestamp := ts }
              let s' := appendMessage s senderId recipientId md
              let recvEmits :=
                match recipient.socketId with
                | some h =>
                  -- `recipient.online && recipient.socketId` (the empty
                  -- string is the one falsy string handle)
                  if recipient.online && h != "" then [Emit.toSocket h (.receiveMessage md)]
                  else []
                | none => []
              .ok (s', recvEmits ++ [.toSocket sid (.messageSent md)])
  | .typing sid recipientIdOpt isTyping =>
    match alookup s.connections sid with
    | none => .ok (s, [])
    | some senderId =>
      match recipientIdOpt with
      | none => .ok (s, [])  -- `users.get(undefined)` is undefined
      | some recipientId =>
        match alookup s.users recipientId with
        | none => .ok (s, [])
        | some recipient =>
          match recipient.socketId with
          | some h =>
            if recipient.online && h != "" then
              .ok (s, [.toSocket h (.userTyping senderId isTyping)])
            else .ok (s, [])
          | none => .ok (s, [])
  | .disconnect sid => .ok (logoutCore s sid)
  | .logout sid => .ok (logoutCore s sid)

/-- The state after an event; a thrown handler (which would crash the
Node process) is modelled as leaving the state unchanged. The
presence events (`user-login`, `logout`, `disconnect`) never throw. -/
def stepState (s : ServerState) (e : Event) : ServerState :=
  match step s e with
  | .ok (s', _) => s'
  | .error _ => s

/-- A whole inbound event sequence, handled one event to completion at
a time (the server's single-threaded scheduling model). -/
def applyEvents (s : ServerState) (evs : List Event) : ServerState :=
  evs.foldl stepState s

/-! ## Basic lemmas about the map primitives -/

theorem alookup_mapSet {K V : Type} [DecidableEq K] (l : List (K × V)) (k k' : K) (v : V) :
    alookup (mapSet l k v) k' = if k' = k then some v else alookup l k' := by
  induction l with
  | nil => simp [mapSet, alookup]
  | cons p t ih =>
    obtain ⟨k₀, v₀⟩ := p
    by_cases h : k = k₀
    · subst h
      by_cases hk : k' = k <;> simp [mapSet, alookup, hk]
    · by_cases hk : k' = k₀
      · subst hk
        simp [mapSet, alookup, h]
        rw [if_neg fun hh => h hh.symm]
      · simp [mapSet, alookup, h, hk, ih]

theorem alookup_mapSet_self {K V : Type} [DecidableEq K] (l : List (K × V)) (k : K) (v : V) :
    alookup (mapSet l k v) k = some v := by
  simp [alookup_mapSet]

theorem alookup_mapSet_ne {K V : Type} [DecidableEq K] (l : List (K × V)) (k k' : K) (v : V)
    (h : k' ≠ k) : alookup (mapSet l k v) k' = alookup l k' := by
  simp [alookup_mapSet, h]

theorem alookup_mapDel_ne {K V : Type} [DecidableEq K] (l : List (K × V)) (k k' : K)
    (h : k' ≠ k) : alookup (mapDel l k) k' = alookup l k' := by
  induction l with
  | nil => simp [mapDel]
  | cons p t ih =>
    obtain ⟨k₀, v₀⟩ := p
    by_cases hk : k = k₀
    · subst hk
      simp [mapDel, alookup, h]
    · by_cases hk' : k' = k₀ <;> simp [mapDel, alookup, hk, hk', ih]

theorem alookup_mem {K V : Type} [DecidableEq K] (l : List (K × V)) (k : K) (v : V)
    (h : alookup l k = some v) : (k, v) ∈ l := by
  induction l with
  | nil => simp [alookup] at h
  | cons p t ih =>
    obtain ⟨k₀, v₀⟩ := p
    by_cases hk : k = k₀
    · subst hk
      simp [alookup] at h
      simp [h]
    · simp [alookup, hk] at h
      exact List.mem_cons_of_mem _ (ih h)

/-! ## Lemmas about the JS string comparison -/

theorem jsLtChars_asymm (a b : List Char) (h : jsLtChars a b = true) :
    jsLtChars b a = false := by
  induction a generalizing b with
  | nil =>
    cases b with
    | nil => simp [jsLtChars] at h
    | cons y ys => simp [jsLtChars]
  | cons x xs ih =>
    cases b with
    | nil => simp [jsLtChars] at h
    | cons y ys =>
      by_cases h1 : x < y
      · simp [jsLtChars, h1, asymm h1]
      · by_cases h2 : y < x
        · simp [jsLtChars, h1, h2] at h
        · simp [jsLtChars, h1, h2] at h ⊢
          exact ih ys h

theorem jsLtChars_eq_of_not_lt (a b : List Char) (hab : jsLtChars a b = false)
    (hba : jsLtChars b a = false) : a = b := by
  induction a generalizing b with
  | nil =>
    cases b with
    | nil => rfl
    | cons y ys => simp [jsLtChars] at hab
  | cons x xs ih =>
    cases b with
    | nil => simp [jsLtChars] at hba
    | cons y ys =>
      by_cases h1 : x < y
      · simp [jsLtChars, h1] at hab
      · by_cases h2 : y < x
        · simp [jsLtChars, h1, h2] at hba
        · have hx : x = y := le_antisymm (not_lt.mp h2) (not_lt.mp h1)
          subst hx
          simp [jsLtChars, h1, h2] at hab hba
          rw [ih ys hab hba]

/-- Both orderings of a pair canonicalize to the same conversation id. -/
theorem getConversationId_comm (u v : String) :
    getConversationId u v = getConversationId v u := by
  unfold getConversationId
  by_cases h1 : jsLtChars v.data u.data = true
  · simp [h1, jsLtChars_asymm _ _ h1]
  · by_cases h2 : jsLtChars u.data v.data = true
    · simp [h1, h2]
    · have : u.data = v.data :=
        jsLtChars_eq_of_not_lt _ _ (Bool.eq_false_iff.mpr h2) (Bool.eq_false_iff.mpr h1)
      have huv : u = v := by
        cases u; cases v; exact congrArg String.mk this
      simp [huv]

/-! ## Injectivity of the conversation key on registration-shaped ids -/

/-- Base-36 digit, as produced by `Math.random().toString(36)`. -/
def isBase36 (c : Char) : Bool :=
  c.isDigit || ('a' ≤ c && c ≤ 'z')

/-- A user identifier of the shape registration allocates:
`user_<timestamp>_<9 base-36 chars>` with a non-empty decimal
timestamp. -/
def WFId (s : String) : Prop :=
  ∃ t r : List Char,
    s.data = ("user_".data ++ t ++ ['_'] ++ r) ∧ t ≠ [] ∧
      (∀ c ∈ t, c.isDigit = true) ∧ r.length = 9 ∧ (∀ c ∈ r, isBase36 c = true)

theorem count_underscore_of_WFId (s : String) (h : WFId s) : s.data.count '_' = 2 := by
  obtain ⟨t, r, hdata, -, hdig, -, hb36⟩ := h
  have ht : t.count '_' = 0 := by
    rw [List.count_eq_zero]
    intro hmem
    exact absurd (hdig _ hmem) (by decide)
  have hr : r.count '_' = 0 := by
    rw [List.count_eq_zero]
    intro hmem
    exact absurd (hb36 _ hmem) (by decide)
  rw [hdata, List.count_append, List.count_append, List.count_append, ht, hr]
  decide

/-- Splitting at a separator is unambiguous when the two left parts
agree on how many separators they contain. -/
theorem append_sep_inj (a : List Char) : ∀ (c b d : List Char),
    a.count '_' = c.count '_' → a ++ '_' :: b = c ++ '_' :: d → a = c ∧ b = d := by
  induction a with
  | nil =>
    intro c b d hcnt h
    cases c with
    | nil => simpa using h
    | cons y ys =>
      simp only [List.nil_append, List.cons_append, List.cons.injEq] at h
      obtain ⟨hy, -⟩ := h
      rw [← hy] at hcnt
      simp [List.count_cons] at hcnt
  | cons x xs ih =>
    intro c b d hcnt h
    cases c with
    | nil =>
      simp only [List.nil_append, List.cons_append, List.cons.injEq] at h
      obtain ⟨hy, -⟩ := h
      rw [hy] at hcnt
      simp [List.count_cons] at hcnt
    | cons y ys =>
      simp only [List.cons_append, List.cons.injEq] at h
      obtain ⟨hxy, ht⟩ := h
      subst hxy
      have hcnt' : xs.count '_' = ys.count '_' := by
        simp [List.count_cons] at hcnt
        omega
      obtain ⟨h1, h2⟩ := ih ys b d hcnt' ht
      exact ⟨by rw [h1], h2⟩

/-- The underlying character list of `x ++ "_" ++ y`. -/
theorem data_join_sep (x y : String) : (x ++ "_" ++ y).data = x.data ++ '_' :: y.data := by
  rw [String.data_append, String.data_append]
  simp

/-- Joining two ids that each contain exactly two underscores (as all
registration-shaped ids do) with `"_"` is injective in the ordered pair. -/
theorem join_sep_inj (x y z w : String)
    (hx : x.data.count '_' = 2) (hz : z.data.count '_' = 2)
    (h : x ++ "_" ++ y = z ++ "_" ++ w) : x = z ∧ y = w := by
  have hd : x.data ++ '_' :: y.data = z.data ++ '_' :: w.data := by
    rw [← data_join_sep, ← data_join_sep, h]
  obtain ⟨h1, h2⟩ := append_sep_inj x.data z.data y.data w.data (by rw [hx, hz]) hd
  constructor
  · cases x; cases z; exact congrArg String.mk h1
  · cases y; cases w; exact congrArg String.mk h2

/-- Equal conversation ids of two pairs of registration-shaped ids force
the pairs to be equal as unordered pairs. -/
theorem getConversationId_eq_of_WFId (A B C D : String)
    (hA : WFId A) (hB : WFId B) (hC : WFId C) (hD : WFId D)
    (h : getConversationId A B = getConversationId C D) :
    (A = C ∧ B = D) ∨ (A = D ∧ B = C) := by
  have cA := count_underscore_of_WFId A hA
  have cB := count_underscore_of_WFId B hB
  have cC := count_underscore_of_WFId C hC
  have cD := count_underscore_of_WFId D hD
  unfold getConversationId at h
  by_cases h1 : jsLtChars B.data A.data = true <;>
    by_cases h2 : jsLtChars D.data C.data = true <;> simp [h1, h2] at h
  · obtain ⟨e1, e2⟩ := join_sep_inj B A D C cB cD h
    exact Or.inl ⟨e2, e1⟩
  · obtain ⟨e1, e2⟩ := join_sep_inj B A C D cB cC h
    exact Or.inr ⟨e2, e1⟩
  · obtain ⟨e1, e2⟩ := join_sep_inj A B D C cA cD h
    exact Or.inr ⟨e1, e2⟩
  · obtain ⟨e1, e2⟩ := join_sep_inj A B C D cA cC h
    exact Or.inl ⟨e1, e2⟩

/-! ## The presence invariant -/

/-- The half of the claimed invariant that the code maintains: a
registered user's `online` flag is set exactly when their connection
handle is non-null. -/
def OnlineInv (s : ServerState) : Prop :=
  ∀ uid rec, alookup s.users uid = some rec → (rec.online = true ↔ rec.socketId ≠ none)

/-- The full invariant as the spec claims it: `online == true` iff the
handle is non-null iff the connections map binds some handle to the
user. -/
def C1ClaimedInv (s : ServerState) : Prop :=
  ∀ uid rec, alookup s.users uid = some rec →
    (rec.online = true ↔ rec.socketId ≠ none) ∧
      (rec.online = true ↔ ∃ sid, alookup s.connections sid = some uid)

/-- A decidable sufficient condition for `OnlineInv`, used to discharge
it on concrete states. -/
def onlineInvB (s : ServerState) : Bool :=
  s.users.all fun p => p.2.online == !(p.2.socketId == none)

theorem onlineInv_of_onlineInvB (s : ServerState) (h : onlineInvB s = true) : OnlineInv s := by
  intro uid rec hr
  have hmem := alookup_mem _ _ _ hr
  have := (List.all_eq_true.mp h) _ hmem
  simp only [beq_iff_eq] at this
  rw [this]
  cases rec.socketId <;> simp

theorem stepState_getHistory (s : ServerState) (sid : String) (o : Option String) :
    stepState s (.getHistory sid o) = s := by
  cases h : alookup s.connections sid <;> simp [stepState, step, h]

theorem stepState_typing (s : ServerState) (sid : String) (rid : Option String)
    (t : Option Bool) : stepState s (.typing sid rid t) = s := by
  cases h1 : alookup s.connections sid with
  | none => simp [stepState, step, h1]
  | some senderId =>
    cases rid with
    | none => simp [stepState, step, h1]
    | some r =>
      cases h2 : alookup s.users r with
      | none => simp [stepState, step, h1, h2]
      | some recip =>
        cases h3 : recip.socketId with
        | none => simp [stepState, step, h1, h2, h3]
        | some h =>
          simp only [stepState, step, h1, h2, h3]
          by_cases hb : (recip.online && h != "") = true
          · rw [if_pos hb]
          · rw [if_neg hb]

theorem users_stepState_sendMessage (s : ServerState) (sid : String)
    (rid msg : Option String) (now : Nat) (rand ts : String) :
    (stepState s (.sendMessage sid rid msg now rand ts)).users = s.users := by
  cases h1 : alookup s.connections sid with
  | none => simp [stepState, step, h1]
  | some senderId =>
    cases rid with
    | none => simp [stepState, step, h1]
    | some r =>
      cases h2 : alookup s.users r with
      | none => simp [stepState, step, h1, h2]
      | some recip =>
        cases h3 : alookup s.users senderId with
        | none => simp [stepState, step, h1, h2, h3]
        | some sender =>
          cases msg with
          | none => simp [stepState, step, h1, h2, h3]
          | some m => simp [stepState, step, h1, h2, h3, appendMessage]

theorem stepState_disconnect (s : ServerState) (sid : String) :
    stepState s (.disconnect sid) = (logoutCore s sid).1 := by
  rcases hl : logoutCore s sid with ⟨a, b⟩
  simp [stepState, step, hl]

theorem stepState_logout (s : ServerState) (sid : String) :
    stepState s (.logout sid) = (logoutCore s sid).1 := by
  rcases hl : logoutCore s sid with ⟨a, b⟩
  simp [stepState, step, hl]

theorem onlineInv_logoutCore (s : ServerState) (sid : String) (h : OnlineInv s) :
    OnlineInv (logoutCore s sid).1 := by
  cases hc : alookup s.connections sid with
  | none =>
    have hst : (logoutCore s sid).1 = { s with connections := mapDel s.connections sid } := by
      simp [logoutCore, hc]
    rw [hst]
    intro uid rec hr
    exact h uid rec hr
  | some uid =>
    cases hu : alookup s.users uid with
    | none =>
      have hst : (logoutCore s sid).1 = { s with connections := mapDel s.connections sid } := by
        simp [logoutCore, hc, hu]
      rw [hst]
      intro uid' rec hr
      exact h uid' rec hr
    | some user =>
      have hst : (logoutCore s sid).1 =
          { s with users := mapSet s.users uid { user with online := false, socketId := none },
                   connections := mapDel s.connections sid } := by
        simp [logoutCore, hc, hu]
      rw [hst]
      intro uid' rec' hr
      simp only at hr
      rw [alookup_mapSet] at hr
      by_cases he : uid' = uid
      · rw [if_pos he] at hr
        cases hr
        simp
      · rw [if_neg he] at hr
        exact h _ _ hr

/-- Every handler preserves the online/handle synchronization. -/
theorem onlineInv_stepState (s : ServerState) (e : Event) (h : OnlineInv s) :
    OnlineInv (stepState s e) := by
  cases e with
  | userLogin sid uidOpt =>
    cases uidOpt with
    | none => exact h
    | some uid =>
      cases hu : alookup s.users uid with
      | none =>
        have hst : stepState s (.userLogin sid (some uid)) = s := by
          simp [stepState, step, hu]
        rw [hst]; exact h
      | some user =>
        have hst : stepState s (.userLogin sid (some uid)) =
            { s with users := mapSet s.users uid { user with socketId := some sid, online := true },
                     connections := mapSet s.connections sid uid } := by
          simp [stepState, step, hu]
        rw [hst]
        intro uid' rec' hr
        simp only at hr
        rw [alookup_mapSet] at hr
        by_cases he : uid' = uid
        · rw [if_pos he] at hr
          cases hr
          simp
        · rw [if_neg he] at hr
          exact h _ _ hr
  | getHistory sid o => rw [stepState_getHistory]; exact h
  | sendMessage sid rid msg now rand ts =>
    intro uid rec hr
    rw [users_stepState_sendMessage] at hr
    exact h _ _ hr
  | typing sid rid t => rw [stepState_typing]; exact h
  | disconnect sid => rw [stepState_disconnect]; exact onlineInv_logoutCore s sid h
  | logout sid => rw [stepState_logout]; exact onlineInv_logoutCore s sid h

theorem onlineInv_applyEvents (s : ServerState) (evs : List Event) (h : OnlineInv s) :
    OnlineInv (applyEvents s evs) := by
  induction evs generalizing s with
  | nil => exact h
  | cons e t ih =>
    rw [applyEvents, List.foldl_cons]
    exact ih _ (onlineInv_stepState s e h)

theorem getLast?_drop_of_lt {α : Type} (l : List α) (k : Nat) (h : k < l.length) :
    (l.drop k).getLast? = l.getLast? := by
  induction l generalizing k with
  | nil => simp at h
  | cons x xs ih =>
    cases k with
    | zero => simp
    | succ n =>
      have hn : n < xs.length := by simpa using h
      rw [List.drop_succ_cons, ih n hn]
      cases xs with
      | nil => simp at hn
      | cons y ys => rw [List.getLast?_cons_cons]

/-- Registration stores the user offline with a null handle, so it
preserves the presence invariant. -/
theorem onlineInv_register (s : ServerState) (u : Option String) (now : Nat) (rand : String)
    (h : OnlineInv s) : OnlineInv (register s u now rand).2 := by
  unfold register
  cases u with
  | none => exact h
  | some v =>
    dsimp only
    split
    · exact h
    · split
      · exact h
      · intro uid rec hr
        simp only at hr
        rw [alookup_mapSet] at hr
        by_cases he : uid = genUserId now rand
        · rw [if_pos he] at hr
          cases hr
          simp
        · rw [if_neg he] at hr
          exact h _ _ hr

/-- A sequence of registration calls starting from some state;
`(username?, Date.now(), random suffix)` per call. -/
def applyRegistrations (s : ServerState) (l : List (Option String × Nat × String)) :
    ServerState :=
  l.foldl (fun s p => (register s p.1 p.2.1 p.2.2).2) s

theorem onlineInv_applyRegistrations (s : ServerState)
    (l : List (Option String × Nat × String)) (h : OnlineInv s) :
    OnlineInv (applyRegistrations s l) := by
  induction l generalizing s with
  | nil => exact h
  | cons p t ih =>
    rw [applyRegistrations, List.foldl_cons]
    exact ih _ (onlineInv_register s p.1 p.2.1 p.2.2 h)

theorem onlineInv_initialState : OnlineInv initialState :=
  fun _ _ hr => nomatch hr

/-! ## Claim C1 -/

/-- Claim C1 (amended): for every state reached from server start by any
sequence of registrations followed by any sequence of events over any
set of channels, and for every registered user, the user's `online`
flag is true iff the user's connection handle (`socketId`) is non-null.
(The further clause of the claim — that this is also equivalent to the
connections map binding at least one channel handle to the user — fails:
see the counterexample.) -/
theorem C1_online_iff_socketId (regs : List (Option String × Nat × String))
    (evs : List Event) :
    OnlineInv (applyEvents (applyRegistrations initialState regs) evs) :=
  onlineInv_applyEvents _ _ (onlineInv_applyRegistrations _ _ onlineInv_initialState)

/-- Witness for C1: on the concrete reachable state where `alice`
registered and then logged in on channel `c1`, the theorem instantiates
to the (true) synchronization fact for her record. -/
theorem C1_online_iff_socketId_witness :
    (true = true ↔ (some "c1" : Option String) ≠ none) :=
  C1_online_iff_socketId [(some "alice", 1, "aaaaaaaaa")]
    [.userLogin "c1" (some "user_1_aaaaaaaaa")]
    "user_1_aaaaaaaaa" ⟨"alice", some "c1", true⟩ (by decide)

/-- Claim C1 counterexample: the claimed three-way invariant is violated
on a reachable state. Register `alice`, log her in on channel `c1`,
log her in again on channel `c2`, then let `c2` disconnect: her record
is now `online = false`, `socketId = null`, yet the connections map
still binds channel `c1` to her id. -/
theorem C1_counterexample :
    ¬ C1ClaimedInv (applyEvents (applyRegistrations initialState [(some "alice", 1, "aaaaaaaaa")])
      [.userLogin "c1" (some "user_1_aaaaaaaaa"),
       .userLogin "c2" (some "user_1_aaaaaaaaa"),
       .disconnect "c2"]) := by
  intro h
  have h2 := (h "user_1_aaaaaaaaa" ⟨"alice", none, false⟩ (by decide)).2
  exact absurd (h2.mpr ⟨"c1", by decide⟩) (by decide)

/-! ## Claim C2 -/

/-- Claim C2 (amended): `register` trims its accepted input before
storing; a missing name, the empty (falsy) string, or a trimmed length
below 2 fails `InvalidName` with no mutation; if the *untrimmed* input
matches some existing user's stored display name case-insensitively it
fails `NameTaken` with no mutation (the code compares the raw input, so
an input with surrounding whitespace whose trimmed form matches an
existing name is *not* rejected); otherwise (including a 20-character
trimmed name) it stores the user under the generated identifier with
the trimmed display name, `online = false` and a null connection
handle, leaving every other identifier's entry unchanged (the code does
not itself check the generated identifier against the registry; it is
fresh whenever the timestamp/random pair is new). -/
theorem C2_register (s : ServerState) (uOpt : Option String) (now : Nat) (rand : String) :
    (uOpt = none → register s uOpt now rand = (.invalidName, s))
    ∧ (∀ u, uOpt = some u → (u = "" ∨ (jsTrim u).length < 2) →
        register s uOpt now rand = (.invalidName, s))
    ∧ (∀ u, uOpt = some u → u ≠ "" → ¬ (jsTrim u).length < 2 →
        (∃ p ∈ s.users, jsToLower p.2.username = jsToLower u) →
        register s uOpt now rand = (.nameTaken, s))
    ∧ (∀ u, uOpt = some u → u ≠ "" → ¬ (jsTrim u).length < 2 →
        (∀ p ∈ s.users, jsToLower p.2.username ≠ jsToLower u) →
        register s uOpt now rand =
            (.success (genUserId now rand) (jsTrim u),
              { s with users := mapSet s.users (genUserId now rand) ⟨jsTrim u, none, false⟩ })
          ∧ alookup (mapSet s.users (genUserId now rand) ⟨jsTrim u, none, false⟩)
              (genUserId now rand) = some ⟨jsTrim u, none, false⟩
          ∧ (∀ uid', uid' ≠ genUserId now rand →
              alookup (mapSet s.users (genUserId now rand) ⟨jsTrim u, none, false⟩) uid' =
                alookup s.users uid')) := by
  refine ⟨?_, ?_, ?_, ?_⟩
  · rintro rfl; rfl
  · rintro u rfl hbad
    have hc : (u == "" || decide ((jsTrim u).length < 2)) = true := by
      rcases hbad with h | h
      · subst h; rfl
      · simp [h]
    simp [register, hc]
  · rintro u rfl hne hlen hex
    have hc : (u == "" || decide ((jsTrim u).length < 2)) = false := by
      simp [hne, hlen]
    have hfind : (s.users.find? fun p => jsToLower p.2.username == jsToLower u).isSome = true := by
      rw [List.find?_isSome]
      obtain ⟨p, hp, he⟩ := hex
      exact ⟨p, hp, by simp [he]⟩
    simp [register, hc, hfind]
  · rintro u rfl hne hlen hnone
    have hc : (u == "" || decide ((jsTrim u).length < 2)) = false := by
      simp [hne, hlen]
    have hfind : (s.users.find? fun p => jsToLower p.2.username == jsToLower u).isSome = false := by
      rw [Bool.eq_false_iff]
      intro hsome
      obtain ⟨p, hp, he⟩ := List.find?_isSome.mp hsome
      exact hnone p hp (by simpa using he)
    refine ⟨by simp [register, hc, hfind], alookup_mapSet_self _ _ _, ?_⟩
    intro uid' hne'
    exact alookup_mapSet_ne _ _ _ _ hne'

/-- The state after registering `alice` from server start
(`Date.now() = 1`, random suffix `aaaaaaaaa`). -/
def C2state : ServerState := (register initialState (some "alice") 1 "aaaaaaaaa").2

/-- Witness for C2: in `C2state`, registering the 20-character name
`abcdefghijklmnopqrst` succeeds, storing it trimmed, offline and with a
null handle. -/
theorem C2_register_witness :
    register C2state (some "abcdefghijklmnopqrst") 2 "bbbbbbbbb" =
      (.success "user_2_bbbbbbbbb" "abcdefghijklmnopqrst",
        { C2state with
            users := mapSet C2state.users "user_2_bbbbbbbbb" ⟨"abcdefghijklmnopqrst", none, false⟩ }) :=
  ((C2_register C2state (some "abcdefghijklmnopqrst") 2 "bbbbbbbbb").2.2.2
    "abcdefghijklmnopqrst" rfl (by decide) (by decide) (by decide)).1

/-- Claim C2 counterexample: with `alice` stored, the input `" alice "`
trims to `alice` — matching the stored display name case-insensitively —
yet registration succeeds instead of failing `NameTaken`, because the
code compares the raw untrimmed input against stored names. -/
theorem C2_counterexample :
    jsTrim " alice " = "alice"
    ∧ alookup C2state.users "user_1_aaaaaaaaa" = some ⟨"alice", none, false⟩
    ∧ (register C2state (some " alice ") 2 "bbbbbbbbb").1 =
        .success "user_2_bbbbbbbbb" "alice" := by
  refine ⟨by decide, by decide, by decide⟩

/-! ## Claim C3 -/

/-- Claim C3 (amended): `history` with a missing limit behaves exactly as
limit 50; for every positive limit `k` it returns a suffix — hence the
chronologically last, in insertion order — of the stored conversation,
of length `min k (stored length)`; with no conversation entry it
returns the empty sequence for every limit. But a non-positive limit is
*not* treated as 50: limit 0 returns the entire conversation and a
negative limit `k` drops the first `|k|` messages (JS `slice`
semantics). -/
theorem C3_history (s : ServerState) (u : String) (v : Option String) :
    getChatHistory s u v none = getChatHistory s u v (some 50)
    ∧ (∀ k : Int, 0 < k →
        getChatHistory s u v (some k) <:+ (alookup s.messages (convIdOpt u v)).getD []
        ∧ (getChatHistory s u v (some k)).length =
            min k.toNat ((alookup s.messages (convIdOpt u v)).getD []).length)
    ∧ (alookup s.messages (convIdOpt u v) = none → ∀ lim, getChatHistory s u v lim = [])
    ∧ getChatHistory s u v (some 0) = (alookup s.messages (convIdOpt u v)).getD []
    ∧ (∀ k : Int, k < 0 →
        getChatHistory s u v (some k) =
          ((alookup s.messages (convIdOpt u v)).getD []).drop (-k).toNat) := by
  have hsome : ∀ k : Int, getChatHistory s u v (some k) =
      jsSlice ((alookup s.messages (convIdOpt u v)).getD []) (-k) := fun _ => rfl
  have hnil : ∀ n : Int, jsSlice ([] : List MessageData) n = [] := by
    intro n
    unfold jsSlice
    split <;> simp
  refine ⟨rfl, ?_, ?_, ?_, ?_⟩
  · intro k hk
    rw [hsome]
    unfold jsSlice
    rw [if_neg (by omega)]
    refine ⟨List.drop_suffix _ _, ?_⟩
    rw [List.length_drop]
    simp only [neg_neg]
    omega
  · intro h lim
    cases lim with
    | none =>
      show jsSlice ((alookup s.messages (convIdOpt u v)).getD []) (-50) = []
      rw [h, Option.getD_none, hnil]
    | some k => rw [hsome, h, Option.getD_none, hnil]
  · rw [hsome]
    unfold jsSlice
    simp
  · intro k hk
    rw [hsome]
    unfold jsSlice
    rw [if_pos (by omega)]

/-- A one-message conversation between ids `A` and `B`. -/
def C3msg : MessageData := ⟨"msg_1_x", "A", "alice", "B", "bob", "hi", "t"⟩

def C3state : ServerState := appendMessage initialState "A" "B" C3msg

/-- Witness for C3: on the one-message store, limit 1 returns a suffix
of the stored conversation of length `min 1 1`. -/
theorem C3_history_witness :
    getChatHistory C3state "A" (some "B") (some 1) <:+
        (alookup C3state.messages (convIdOpt "A" (some "B"))).getD []
      ∧ (getChatHistory C3state "A" (some "B") (some 1)).length =
          min (1 : Int).toNat ((alookup C3state.messages (convIdOpt "A" (some "B"))).getD []).length :=
  (C3_history C3state "A" (some "B")).2.1 1 (by decide)

/-- Claim C3 counterexample: on a one-message conversation, the claimed
"non-positive limit behaves as 50" fails: limit `-1` yields the empty
sequence while limit 50 yields the message. -/
theorem C3_counterexample :
    getChatHistory C3state "A" (some "B") (some (-1)) = []
    ∧ getChatHistory C3state "A" (some "B") (some 50) = [C3msg] := by
  refine ⟨by decide, by decide⟩

/-! ## Claim C4 -/

/-- Claim C4 (confirmed): distinct unordered pairs of registration-shaped
ids (`user_<timestamp>_<9 base-36 chars>`) get distinct conversation
keys, and appending a message for one pair leaves the history of any
different pair unchanged. -/
theorem C4_conversation_keys (A B C D : String)
    (hA : WFId A) (hB : WFId B) (hC : WFId C) (hD : WFId D)
    (hne : ¬ ((A = C ∧ B = D) ∨ (A = D ∧ B = C))) :
    getConversationId A B ≠ getConversationId C D
    ∧ ∀ (s : ServerState) (md : MessageData) (lim : Option Int),
        getChatHistory (appendMessage s A B md) C (some D) lim =
          getChatHistory s C (some D) lim := by
  have hkey : getConversationId A B ≠ getConversationId C D := by
    intro h
    exact hne (getConversationId_eq_of_WFId A B C D hA hB hC hD h)
  refine ⟨hkey, ?_⟩
  intro s md lim
  have hlook : alookup (appendMessage s A B md).messages (convIdOpt C (some D)) =
      alookup s.messages (convIdOpt C (some D)) := by
    show alookup (mapSet s.messages (getConversationId A B) _) (getConversationId C D) = _
    exact alookup_mapSet_ne _ _ _ _ (Ne.symm hkey)
  simp only [getChatHistory, hlook]

theorem wfId_a : WFId "user_1_aaaaaaaaa" :=
  ⟨['1'], "aaaaaaaaa".data, by decide, by decide, by decide, by decide, by decide⟩

theorem wfId_b : WFId "user_2_bbbbbbbbb" :=
  ⟨['2'], "bbbbbbbbb".data, by decide, by decide, by decide, by decide, by decide⟩

theorem wfId_c : WFId "user_3_ccccccccc" :=
  ⟨['3'], "ccccccccc".data, by decide, by decide, by decide, by decide, by decide⟩

/-- Witness for C4: the pairs (a, b) and (a, c) (sharing one id)
get distinct keys, and appending to the first leaves the second's
history untouched. -/
theorem C4_conversation_keys_witness :
    getConversationId "user_1_aaaaaaaaa" "user_2_bbbbbbbbb" ≠
        getConversationId "user_1_aaaaaaaaa" "user_3_ccccccccc"
    ∧ getChatHistory (appendMessage initialState "user_1_aaaaaaaaa" "user_2_bbbbbbbbb" C3msg)
        "user_1_aaaaaaaaa" (some "user_3_ccccccccc") none =
      getChatHistory initialState "user_1_aaaaaaaaa" (some "user_3_ccccccccc") none := by
  have h := C4_conversation_keys "user_1_aaaaaaaaa" "user_2_bbbbbbbbb"
    "user_1_aaaaaaaaa" "user_3_ccccccccc" wfId_a wfId_b wfId_a wfId_c (by decide)
  exact ⟨h.1, h.2 initialState C3msg none⟩

/-! ## Claim C5 -/

/-- Claim C5 (confirmed): a `send-message` from an authenticated channel
naming a recipient id not in the registry (missing or unknown) yields
exactly one `error` emission to the sender and returns the state
unchanged — registry, connections map and conversation store intact, so
in particular the total stored message count is unchanged. -/
theorem C5_unknown_recipient (s : ServerState) (c senderId : String)
    (ridOpt msgOpt : Option String) (now : Nat) (rand ts : String)
    (hauth : alookup s.connections c = some senderId)
    (hno : ∀ rid, ridOpt = some rid → alookup s.users rid = none) :
    step s (.sendMessage c ridOpt msgOpt now rand ts) =
      .ok (s, [.toSocket c (.errorMsg "Recipient not found")])
    ∧ totalMessages (stepState s (.sendMessage c ridOpt msgOpt now rand ts)) =
        totalMessages s := by
  have hst : step s (.sendMessage c ridOpt msgOpt now rand ts) =
      .ok (s, [.toSocket c (.errorMsg "Recipient not found")]) := by
    cases ridOpt with
    | none => simp [step, hauth]
    | some rid => simp [step, hauth, hno rid rfl]
  exact ⟨hst, by simp [stepState, hst]⟩

/-- Registered `alice` (bound to channel `c1`, online) and nobody else. -/
def C5state : ServerState := applyEvents C2state [.userLogin "c1" (some "user_1_aaaaaaaaa")]

/-- Witness for C5: concrete send to the unknown id `nobody`. -/
theorem C5_unknown_recipient_witness :
    step C5state (.sendMessage "c1" (some "nobody") (some "hi") 9 "r" "t") =
      .ok (C5state, [.toSocket "c1" (.errorMsg "Recipient not found")])
    ∧ totalMessages (stepState C5state (.sendMessage "c1" (some "nobody") (some "hi") 9 "r" "t")) =
        totalMessages C5state :=
  C5_unknown_recipient C5state "c1" "user_1_aaaaaaaaa" (some "nobody") (some "hi") 9 "r" "t"
    (by decide) (by intro rid h; cases h; decide)

/-! ## Claim C6 -/

/-- Claim C6 (confirmed): a `send-message` from an authenticated sender to
a registered but offline recipient emits exactly one `message-sent`
(carrying the stored message, whose body is the trimmed input) to the
sender and no `receive-message` anywhere, and that stored message is the
last element of `history(sender, recipient)` taken after the send. -/
theorem C6_offline_recipient (s : ServerState) (c sid rid : String)
    (sender recip : UserRec) (m : String) (now : Nat) (rand ts : String)
    (hc : alookup s.connections c = some sid)
    (hs : alookup s.users sid = some sender)
    (hr : alookup s.users rid = some recip)
    (hoff : recip.online = false) :
    step s (.sendMessage c (some rid) (some m) now rand ts) =
      .ok (appendMessage s sid rid
            ⟨genMsgId now rand, sid, sender.username, rid, recip.username, jsTrim m, ts⟩,
          [.toSocket c (.messageSent
            ⟨genMsgId now rand, sid, sender.username, rid, recip.username, jsTrim m, ts⟩)])
    ∧ (getChatHistory (appendMessage s sid rid
          ⟨genMsgId now rand, sid, sender.username, rid, recip.username, jsTrim m, ts⟩)
          sid (some rid) none).getLast? =
        some ⟨genMsgId now rand, sid, sender.username, rid, recip.username, jsTrim m, ts⟩ := by
  constructor
  · cases hsock : recip.socketId with
    | none => simp [step, hc, hs, hr, hsock]
    | some h => simp [step, hc, hs, hr, hsock, hoff]
  · have hlook : alookup (appendMessage s sid rid
        ⟨genMsgId now rand, sid, sender.username, rid, recip.username, jsTrim m, ts⟩).messages
          (getConversationId sid rid) =
        some ((alookup s.messages (getConversationId sid rid)).getD [] ++
          [⟨genMsgId now rand, sid, sender.username, rid, recip.username, jsTrim m, ts⟩]) := by
      simp [appendMessage, alookup_mapSet_self]
    simp only [getChatHistory, convIdOpt, hlook, Option.getD_some, Option.getD_none]
    unfold jsSlice
    rw [if_neg (by omega)]
    rw [getLast?_drop_of_lt]
    · exact List.getLast?_concat _
    · simp only [neg_neg, List.length_append, List.length_cons, List.length_nil, Int.toNat_ofNat]
      omega

/-- State with `alice` (bound to `c1`, online) and `bob` (registered, offline). -/
def C6state : ServerState :=
  applyEvents
    (applyRegistrations initialState
      [(some "alice", 1, "aaaaaaaaa"), (some "bob", 3, "ccccccccc")])
    [.userLogin "c1" (some "user_1_aaaaaaaaa")]

/-- Witness for C6: alice sends `" hi "` to offline bob. -/
theorem C6_offline_recipient_witness :
    step C6state (.sendMessage "c1" (some "user_3_ccccccccc") (some " hi ") 9 "r" "t") =
      .ok (appendMessage C6state "user_1_aaaaaaaaa" "user_3_ccccccccc"
            ⟨genMsgId 9 "r", "user_1_aaaaaaaaa", "alice", "user_3_ccccccccc", "bob",
              jsTrim " hi ", "t"⟩,
          [.toSocket "c1" (.messageSent
            ⟨genMsgId 9 "r", "user_1_aaaaaaaaa", "alice", "user_3_ccccccccc", "bob",
              jsTrim " hi ", "t"⟩)])
    ∧ (getChatHistory (appendMessage C6state "user_1_aaaaaaaaa" "user_3_ccccccccc"
          ⟨genMsgId 9 "r", "user_1_aaaaaaaaa", "alice", "user_3_ccccccccc", "bob",
            jsTrim " hi ", "t"⟩)
          "user_1_aaaaaaaaa" (some "user_3_ccccccccc") none).getLast? =
        some ⟨genMsgId 9 "r", "user_1_aaaaaaaaa", "alice", "user_3_ccccccccc", "bob",
          jsTrim " hi ", "t"⟩ :=
  C6_offline_recipient C6state "c1" "user_1_aaaaaaaaa" "user_3_ccccccccc"
    ⟨"alice", some "c1", true⟩ ⟨"bob", none, false⟩ " hi " 9 "r" "t"
    (by decide) (by decide) (by decide) rfl

/-! ## Claim C7 -/

/-- Claim C7 (confirmed): the conversation key is symmetric in the pair,
so `history(A,B)` and `history(B,A)` return the identical sequence for
every state and limit, and appending under `(A,B)` mutates exactly the
same store entry as appending under `(B,A)`. -/
theorem C7_history_symm (a b : String) (s : ServerState) (lim : Option Int)
    (md : MessageData) :
    getConversationId a b = getConversationId b a
    ∧ getChatHistory s a (some b) lim = getChatHistory s b (some a) lim
    ∧ appendMessage s a b md = appendMessage s b a md := by
  have h := getConversationId_comm a b
  refine ⟨h, ?_, ?_⟩
  · simp only [getChatHistory, convIdOpt, h]
  · simp only [appendMessage, h]

/-! ## Claim C8 -/

/-- A list of `typing` events, one per `(channel, recipientId, isTyping)`
triple. -/
def typingEvents (l : List (String × Option String × Option Bool)) : List Event :=
  l.map fun p => .typing p.1 p.2.1 p.2.2

/-- Claim C8 (confirmed): a `typing` event never mutates the registry,
connections map or conversation store; its only emission is at most one
`user-typing` unicast to the recipient's handle, emitted only when the
sender is authenticated and the recipient is online; and after any
number of `typing` events the state — hence `history()` for every
pair — is exactly what it was before. -/
theorem C8_typing_frame (s : ServerState) (c : String) (ro : Option String)
    (t : Option Bool) (l : List (String × Option String × Option Bool)) :
    (∃ ems, step s (.typing c ro t) = .ok (s, ems) ∧
      (ems = [] ∨ ∃ senderId rid recip h,
        alookup s.connections c = some senderId ∧ ro = some rid ∧
        alookup s.users rid = some recip ∧ recip.online = true ∧
        recip.socketId = some h ∧ ems = [.toSocket h (.userTyping senderId t)]))
    ∧ applyEvents s (typingEvents l) = s
    ∧ ∀ (u : String) (v : Option String) (lim : Option Int),
        getChatHistory (applyEvents s (typingEvents l)) u v lim =
          getChatHistory s u v lim := by
  have happly : applyEvents s (typingEvents l) = s := by
    induction l with
    | nil => rfl
    | cons p rest ih =>
      rw [typingEvents, List.map_cons, applyEvents, List.foldl_cons, stepState_typing]
      exact ih
  refine ⟨?_, happly, fun u v lim => by rw [happly]⟩
  cases h1 : alookup s.connections c with
  | none => exact ⟨[], by simp [step, h1], Or.inl rfl⟩
  | some senderId =>
    cases ro with
    | none => exact ⟨[], by simp [step, h1], Or.inl rfl⟩
    | some rid =>
      cases h2 : alookup s.users rid with
      | none => exact ⟨[], by simp [step, h1, h2], Or.inl rfl⟩
      | some recip =>
        cases h3 : recip.socketId with
        | none => exact ⟨[], by simp [step, h1, h2, h3], Or.inl rfl⟩
        | some h =>
          by_cases hb : (recip.online && h != "") = true
          · have hb' := hb
            rw [Bool.and_eq_true] at hb'
            exact ⟨[.toSocket h (.userTyping senderId t)],
              by simp only [step, h1, h2, h3]; rw [if_pos hb],
              Or.inr ⟨senderId, rid, recip, h, rfl, rfl, h2, hb'.1, h3, rfl⟩⟩
          · exact ⟨[], by simp only [step, h1, h2, h3]; rw [if_neg hb], Or.inl rfl⟩

/-! ## Claim C9 -/

/-- Every bound channel resolves to a registered user — true of every
state the server itself produces, since bindings are created only at
login after an existence check and users are never deleted. -/
def ConnsResolve (s : ServerState) : Prop :=
  ∀ c uid, alookup s.connections c = some uid → (alookup s.users uid).isSome = true

/-- Decidable sufficient condition for `ConnsResolve` on concrete states. -/
def connsResolveB (s : ServerState) : Bool :=
  s.connections.all fun p => (alookup s.users p.2).isSome

theorem connsResolve_of_B (s : ServerState) (h : connsResolveB s = true) : ConnsResolve s := by
  intro c uid hcu
  exact (List.all_eq_true.mp h) _ (alookup_mem _ _ _ hcu)

/-- The payload condition under which no handler throws: a
`send-message` must actually carry a `message` field. -/
def msgFieldOk : Event → Prop
  | .sendMessage _ _ msgOpt _ _ _ => msgOpt ≠ none
  | _ => True

/-- The channel an inbound event arrived on (the originating channel,
`socket.id` inside the handler). -/
def eventSid : Event → String
  | .userLogin sid _ => sid
  | .getHistory sid _ => sid
  | .sendMessage sid _ _ _ _ _ => sid
  | .typing sid _ _ => sid
  | .disconnect sid => sid
  | .logout sid => sid

/-- Whether an emission carries an `error` payload (a surfaced failure),
whatever its fan-out. -/
def isErrorEmit : Emit → Bool
  | .toSocket _ (.errorMsg _) => true
  | .toAll (.errorMsg _) => true
  | .broadcastFrom _ (.errorMsg _) => true
  | _ => false

/-- For an emission list containing no `error` payloads, the two
error-surfacing clauses hold vacuously. -/
theorem errorFree_clauses {P : Emit → Prop} {Q : Prop} (ems : List Emit)
    (h : ems.all (fun em => !isErrorEmit em) = true) :
    (∀ em ∈ ems, isErrorEmit em = true → P em)
    ∧ ((∃ em ∈ ems, isErrorEmit em = true) → Q) := by
  constructor
  · intro em hm he
    have hf := List.all_eq_true.mp h em hm
    rw [he] at hf
    simp at hf
  · rintro ⟨em, hm, he⟩
    have hf := List.all_eq_true.mp h em hm
    rw [he] at hf
    simp at hf

/-- For the emission list of a failed handler — a single `error` unicast
to channel `sid` — the error-surfacing clauses hold with that channel as
the target. -/
theorem errorUnicast_clauses (sid msg : String) {Q : Prop} (hq : Q) :
    (∀ em ∈ [Emit.toSocket sid (Payload.errorMsg msg)], isErrorEmit em = true →
      ∃ m, em = Emit.toSocket sid (Payload.errorMsg m))
    ∧ ((∃ em ∈ [Emit.toSocket sid (Payload.errorMsg msg)], isErrorEmit em = true) → Q) := by
  constructor
  · intro em hm _
    rw [List.mem_singleton] at hm
    exact ⟨msg, hm⟩
  · intro _
    exact hq

/-- Whether the handler for `e` runs to completion (rather than
throwing) in state `s`. -/
def stepCompletes (s : ServerState) (e : Event) : Bool :=
  match step s e with
  | .ok _ => true
  | .error _ => false

/-- With well-typed payloads and resolving bindings, every handler
returns normally instead of throwing. -/
theorem step_completes_of_typed_payload (s : ServerState) (e : Event) (hres : ConnsResolve s)
    (hmsg : msgFieldOk e) : stepCompletes s e = true := by
  cases e with
  | userLogin sid uidOpt =>
    cases uidOpt with
    | none => rfl
    | some uid =>
      cases hu : alookup s.users uid with
      | none => simp [stepCompletes, step, hu]
      | some user => simp [stepCompletes, step, hu]
  | getHistory sid o =>
    cases h : alookup s.connections sid with
    | none => simp [stepCompletes, step, h]
    | some uid => simp [stepCompletes, step, h]
  | sendMessage sid ro mo now rand ts =>
    cases h1 : alookup s.connections sid with
    | none => simp [stepCompletes, step, h1]
    | some senderId =>
      cases ro with
      | none => simp [stepCompletes, step, h1]
      | some rid =>
        cases h2 : alookup s.users rid with
        | none => simp [stepCompletes, step, h1, h2]
        | some recip =>
          have hsender := hres sid senderId h1
          cases h3 : alookup s.users senderId with
          | none => rw [h3] at hsender; simp at hsender
          | some sender =>
            cases mo with
            | none => exact absurd rfl hmsg
            | some m => simp [stepCompletes, step, h1, h2, h3]
  | typing sid ro t =>
    cases h1 : alookup s.connections sid with
    | none => simp [stepCompletes, step, h1]
    | some senderId =>
      cases ro with
      | none => simp [stepCompletes, step, h1]
      | some rid =>
        cases h2 : alookup s.users rid with
        | none => simp [stepCompletes, step, h1, h2]
        | some recip =>
          cases h3 : recip.socketId with
          | none => simp [stepCompletes, step, h1, h2, h3]
          | some h =>
            by_cases hb : (recip.online && h != "") = true
            · simp only [stepCompletes, step, h1, h2, h3]
              rw [if_pos hb]
            · simp only [stepCompletes, step, h1, h2, h3]
              rw [if_neg hb]
  | disconnect sid => rfl
  | logout sid => rfl

theorem exists_ok_of_completes (s : ServerState) (e : Event)
    (h : stepCompletes s e = true) : ∃ out, step s e = .ok out := by
  cases hs : step s e with
  | ok out => exact ⟨out, rfl⟩
  | error a => simp [stepCompletes, hs] at h

/-- However a handler run ends in `.ok`, every `error` payload among its
emissions is a unicast to the originating channel, emitted with the
state unchanged — the handlers emit errors only from their early-return
guard branches, before any mutation. -/
theorem step_error_routing (s : ServerState) (e : Event) (s' : ServerState)
    (ems : List Emit) (h : step s e = .ok (s', ems)) :
    (∀ em ∈ ems, isErrorEmit em = true →
      ∃ msg, em = Emit.toSocket (eventSid e) (Payload.errorMsg msg))
    ∧ ((∃ em ∈ ems, isErrorEmit em = true) → s' = s) := by
  cases e with
  | userLogin sid uidOpt =>
    cases uidOpt with
    | none =>
      simp only [step, Except.ok.injEq, Prod.mk.injEq] at h
      obtain ⟨rfl, rfl⟩ := h
      exact errorUnicast_clauses sid "User not found" rfl
    | some uid =>
      cases hu : alookup s.users uid with
      | none =>
        simp only [step, hu, Except.ok.injEq, Prod.mk.injEq] at h
        obtain ⟨rfl, rfl⟩ := h
        exact errorUnicast_clauses sid "User not found" rfl
      | some user =>
        simp only [step, hu, Except.ok.injEq, Prod.mk.injEq] at h
        obtain ⟨rfl, rfl⟩ := h
        exact errorFree_clauses _ rfl
  | getHistory sid o =>
    cases hc : alookup s.connections sid with
    | none =>
      simp only [step, hc, Except.ok.injEq, Prod.mk.injEq] at h
      obtain ⟨rfl, rfl⟩ := h
      exact errorFree_clauses _ rfl
    | some uid =>
      simp only [step, hc, Except.ok.injEq, Prod.mk.injEq] at h
      obtain ⟨rfl, rfl⟩ := h
      exact errorFree_clauses _ rfl
  | sendMessage sid ro mo now rand ts =>
    cases h1 : alookup s.connections sid with
    | none =>
      simp only [step, h1, Except.ok.injEq, Prod.mk.injEq] at h
      obtain ⟨rfl, rfl⟩ := h
      exact errorUnicast_clauses sid "Not authenticated" rfl
    | some senderId =>
      cases ro with
      | none =>
        simp only [step, h1, Except.ok.injEq, Prod.mk.injEq] at h
        obtain ⟨rfl, rfl⟩ := h
        exact errorUnicast_clauses sid "Recipient not found" rfl
      | some rid =>
        cases h2 : alookup s.users rid with
        | none =>
          simp only [step, h1, h2, Except.ok.injEq, Prod.mk.injEq] at h
          obtain ⟨rfl, rfl⟩ := h
          exact errorUnicast_clauses sid "Recipient not found" rfl
        | some recip =>
          cases h3 : alookup s.users senderId with
          | none =>
            simp only [step, h1, h2, h3] at h
            exact Except.noConfusion h
          | some sender =>
            cases mo with
            | none =>
              simp only [step, h1, h2, h3] at h
              exact Except.noConfusion h
            | some m =>
              cases hsock : recip.socketId with
              | none =>
                simp only [step, h1, h2, h3, hsock, Except.ok.injEq, Prod.mk.injEq] at h
                obtain ⟨rfl, rfl⟩ := h
                exact errorFree_clauses _ rfl
              | some hd =>
                simp only [step, h1, h2, h3, hsock] at h
                by_cases hb : (recip.online && hd != "") = true
                · rw [if_pos hb] at h
                  simp only [Except.ok.injEq, Prod.mk.injEq] at h
                  obtain ⟨rfl, rfl⟩ := h
                  exact errorFree_clauses _ rfl
                · rw [if_neg hb] at h
                  simp only [Except.ok.injEq, Prod.mk.injEq] at h
                  obtain ⟨rfl, rfl⟩ := h
                  exact errorFree_clauses _ rfl
  | typing sid ro t =>
    cases h1 : alookup s.connections sid with
    | none =>
      simp only [step, h1, Except.ok.injEq, Prod.mk.injEq] at h
      obtain ⟨rfl, rfl⟩ := h
      exact errorFree_clauses _ rfl
    | some senderId =>
      cases ro with
      | none =>
        simp only [step, h1, Except.ok.injEq, Prod.mk.injEq] at h
        obtain ⟨rfl, rfl⟩ := h
        exact errorFree_clauses _ rfl
      | some rid =>
        cases h2 : alookup s.users rid with
        | none =>
          simp only [step, h1, h2, Except.ok.injEq, Prod.mk.injEq] at h
          obtain ⟨rfl, rfl⟩ := h
          exact errorFree_clauses _ rfl
        | some recip =>
          cases h3 : recip.socketId with
          | none =>
            simp only [step, h1, h2, h3, Except.ok.injEq, Prod.mk.injEq] at h
            obtain ⟨rfl, rfl⟩ := h
            exact errorFree_clauses _ rfl
          | some hd =>
            simp only [step, h1, h2, h3] at h
            by_cases hb : (recip.online && hd != "") = true
            · rw [if_pos hb] at h
              simp only [Except.ok.injEq, Prod.mk.injEq] at h
              obtain ⟨rfl, rfl⟩ := h
              exact errorFree_clauses _ rfl
            · rw [if_neg hb] at h
              simp only [Except.ok.injEq, Prod.mk.injEq] at h
              obtain ⟨rfl, rfl⟩ := h
              exact errorFree_clauses _ rfl
  | disconnect sid =>
    simp only [step, Except.ok.injEq] at h
    cases hc : alookup s.connections sid with
    | none =>
      simp only [logoutCore, hc, Prod.mk.injEq] at h
      obtain ⟨rfl, rfl⟩ := h
      exact errorFree_clauses _ rfl
    | some uid =>
      cases hu : alookup s.users uid with
      | none =>
        simp only [logoutCore, hc, hu, Prod.mk.injEq] at h
        obtain ⟨rfl, rfl⟩ := h
        exact errorFree_clauses _ rfl
      | some user =>
        simp only [logoutCore, hc, hu, Prod.mk.injEq] at h
        obtain ⟨rfl, rfl⟩ := h
        exact errorFree_clauses _ rfl
  | logout sid =>
    simp only [step, Except.ok.injEq] at h
    cases hc : alookup s.connections sid with
    | none =>
      simp only [logoutCore, hc, Prod.mk.injEq] at h
      obtain ⟨rfl, rfl⟩ := h
      exact errorFree_clauses _ rfl
    | some uid =>
      cases hu : alookup s.users uid with
      | none =>
        simp only [logoutCore, hc, hu, Prod.mk.injEq] at h
        obtain ⟨rfl, rfl⟩ := h
        exact errorFree_clauses _ rfl
      | some user =>
        simp only [logoutCore, hc, hu, Prod.mk.injEq] at h
        obtain ⟨rfl, rfl⟩ := h
        exact errorFree_clauses _ rfl

/-- Claim C9 (amended): every inbound event whose payload fields have
the expected types (and whose bindings resolve, as the server
maintains) runs to completion without throwing, and every failure
surfaces only as a non-fatal `error` event delivered to the originating
channel — every emission carrying an `error` payload is a unicast to
the event's own channel, and when any error is emitted the state is
returned unchanged. (A `send-message` whose `message` payload field is
missing instead throws a `TypeError` from `message.trim()`: see the
counterexample.) -/
theorem C9_no_throw (s : ServerState) (e : Event) (hres : ConnsResolve s)
    (hmsg : msgFieldOk e) :
    ∃ s' ems, step s e = .ok (s', ems)
      ∧ (∀ em ∈ ems, isErrorEmit em = true →
          ∃ msg, em = Emit.toSocket (eventSid e) (Payload.errorMsg msg))
      ∧ ((∃ em ∈ ems, isErrorEmit em = true) → s' = s) := by
  obtain ⟨out, hstep⟩ :=
    exists_ok_of_completes s e (step_completes_of_typed_payload s e hres hmsg)
  obtain ⟨s', ems⟩ := out
  have hr := step_error_routing s e s' ems hstep
  exact ⟨s', ems, hstep, hr.1, hr.2⟩

/-- Witness for C9: on the concrete state with `alice` bound to `c1`, a
`send-message` to the unknown id `ghost` completes normally, its one
failure emission is the `error` unicast to the originating channel
`c1`, and the state comes back unchanged. -/
theorem C9_no_throw_witness :
    ∃ s' ems, step C5state (.sendMessage "c1" (some "ghost") (some "hello") 8 "q" "u") =
        .ok (s', ems)
      ∧ (∀ em ∈ ems, isErrorEmit em = true →
          ∃ msg, em = Emit.toSocket
            (eventSid (.sendMessage "c1" (some "ghost") (some "hello") 8 "q" "u"))
            (Payload.errorMsg msg))
      ∧ ((∃ em ∈ ems, isErrorEmit em = true) → s' = C5state) :=
  C9_no_throw C5state (.sendMessage "c1" (some "ghost") (some "hello") 8 "q" "u")
    (connsResolve_of_B C5state (by decide)) (fun hcon => Option.noConfusion hcon)

/-- Claim C9 counterexample: a `send-message` from authenticated `alice`
to registered `bob` whose payload lacks the `message` field does not run
to completion: `message.trim()` throws a `TypeError` (modelled as
`Except.error`), contradicting the claim that every handler completes
for arbitrary payloads with failures surfacing only as `error` events. -/
theorem C9_counterexample :
    stepCompletes C6state (.sendMessage "c1" (some "user_3_ccccccccc") none 9 "r" "t") =
      false := by rfl

/-! ## Claim C10 -/

/-- Claim C10 (confirmed): a `user-login` for user `u` from a second
channel `c2`, while `u` is already bound to `c1`, succeeds (emitting
`login-success`, not an error): `u`'s `socketId` is overwritten to `c2`
while `c1`'s entry in the connections map remains, so events from `c1`
still resolve to `u`; and a later disconnect of `c1` marks `u` offline
with a null `socketId` even though `c2` is still bound to `u`. -/
theorem C10_second_login (s : ServerState) (u c1 c2 : String) (rec : UserRec)
    (hu : alookup s.users u = some rec)
    (hb : alookup s.connections c1 = some u)
    (hne : c1 ≠ c2) :
    let user' : UserRec := ⟨rec.username, some c2, true⟩
    let s' : ServerState := { s with users := mapSet s.users u user',
                                     connections := mapSet s.connections c2 u }
    step s (.userLogin c2 (some u)) =
        .ok (s', [.toSocket c2 (.loginSuccess u rec.username),
                  .toAll (.usersUpdate (getOnlineUsers s' none)),
                  .broadcastFrom c2 (.userOnline u rec.username)])
      ∧ alookup s'.users u = some user'
      ∧ alookup s'.connections c1 = some u
      ∧ alookup (stepState s' (.disconnect c1)).users u = some ⟨rec.username, none, false⟩
      ∧ alookup (stepState s' (.disconnect c1)).connections c2 = some u := by
  intro user' s'
  have hb' : alookup s'.connections c1 = some u := by
    show alookup (mapSet s.connections c2 u) c1 = some u
    rw [alookup_mapSet_ne _ _ _ _ hne]
    exact hb
  have hu' : alookup s'.users u = some user' := alookup_mapSet_self _ _ _
  have hlc : (logoutCore s' c1).1 =
      { s' with users := mapSet s'.users u ⟨user'.username, none, false⟩,
                connections := mapDel s'.connections c1 } := by
    simp [logoutCore, hb', hu']
  refine ⟨by simp [step, hu, user', s'], hu', hb', ?_, ?_⟩
  · rw [stepState_disconnect, hlc]
    exact alookup_mapSet_self _ _ _
  · rw [stepState_disconnect, hlc]
    show alookup (mapDel (mapSet s.connections c2 u) c1) c2 = some u
    rw [alookup_mapDel_ne _ _ _ (Ne.symm hne)]
    exact alookup_mapSet_self _ _ _

/-- A state in which `A` (alice) is bound to channel `c1` and online. -/
def C10state : ServerState :=
  ⟨[("A", ⟨"alice", some "c1", true⟩)], [("c1", "A")], []⟩

/-- Witness for C10: the concrete double-login scenario on `C10state`. -/
theorem C10_second_login_witness :
    (let user' : UserRec := ⟨"alice", some "c2", true⟩
     let s' : ServerState := { C10state with users := mapSet C10state.users "A" user',
                                             connections := mapSet C10state.connections "c2" "A" }
     step C10state (.userLogin "c2" (some "A")) =
        .ok (s', [.toSocket "c2" (.loginSuccess "A" "alice"),
                  .toAll (.usersUpdate (getOnlineUsers s' none)),
                  .broadcastFrom "c2" (.userOnline "A" "alice")])
      ∧ alookup s'.users "A" = some user'
      ∧ alookup s'.connections "c1" = some "A"
      ∧ alookup (stepState s' (.disconnect "c1")).users "A" = some ⟨"alice", none, false⟩
      ∧ alookup (stepState s' (.disconnect "c1")).connections "c2" = some "A") :=
  C10_second_login C10state "A" "c1" "c2" ⟨"alice", some "c1", true⟩
    (by decide) (by decide) (by decide)

end ChatApp
